import Mathlib

set_option autoImplicit false

/-! Shallow embedding of the addressing-and-selection core of the `big`
text editor.  The repository holds two drafts of the same abstractions:
`src/text.rs` (embedded in namespace `Text`) and `src/main.rs` (embedded
in namespace `Main`).  A `ropey::Rope` is modelled as its character
sequence, a `List Char`; the mutexes of `src/text.rs` disappear in the
purely functional embedding.  Rust `&mut self` methods become functions
returning the final state of `self` next to the operation's result, so
that a failure after a partial update is modelled faithfully. -/

/-- The `ropey::Error` variants this code can produce. -/
inductive RopeErr : Type where
  | charIndexOutOfBounds (idx len : Nat)
  | lineIndexOutOfBounds (line lines : Nat)
  deriving DecidableEq

/-- Result of a fallible Rust computation: `ok` and `err` mirror
`ropey::Result`, while `crash` marks a Rust panic (an out-of-bounds
`Rope` access, or an unsigned-integer underflow in a debug build). -/
inductive Outcome (α : Type) : Type where
  | ok (a : α)
  | err (e : RopeErr)
  | crash
  deriving DecidableEq

/-- The character content of a `ropey::Rope`. -/
abbrev Body := List Char

/-- Debug-build `usize` subtraction: underflow panics. -/
def checkedSub (a b : Nat) : Outcome Nat :=
  if b ≤ a then .ok (a - b) else .crash

/-- `Rope::len_lines`: the number of lines is the newline count plus one
(an empty rope has one empty line, a trailing newline opens a final
empty line). -/
def numLines : Body → Nat
  | [] => 1
  | c :: cs => if c = '\n' then numLines cs + 1 else numLines cs

/-- Char index of the start of line `l`, the semantics of
`Rope::line_to_char`; for `l ≥ numLines cs` this is `cs.length`, the
one-past-the-end index. -/
def lineStart : Body → Nat → Nat
  | _, 0 => 0
  | [], _ + 1 => 0
  | c :: cs, l + 1 => if c = '\n' then 1 + lineStart cs l else 1 + lineStart cs (l + 1)

/-- `Rope::try_line_to_char`: accepts the one-past-the-end line index. -/
def tryLineToChar (cs : Body) (l : Nat) : Outcome Nat :=
  if l ≤ numLines cs then .ok (lineStart cs l)
  else .err (.lineIndexOutOfBounds l (numLines cs))

/-- Line containing char index `i`: the number of newlines before `i`
(a newline belongs to the line it terminates). -/
def charToLine : Body → Nat → Nat
  | _, 0 => 0
  | [], _ + 1 => 0
  | c :: cs, i + 1 => (if c = '\n' then 1 else 0) + charToLine cs i

/-- `Rope::try_char_to_line`: accepts the one-past-the-end char index. -/
def tryCharToLine (cs : Body) (i : Nat) : Outcome Nat :=
  if i ≤ cs.length then .ok (charToLine cs i)
  else .err (.charIndexOutOfBounds i cs.length)

/-- Char count of line `l` including its terminating newline, the value
reported by `Rope::line(l).len_chars()` on a valid line index. -/
def lineLen (cs : Body) (l : Nat) : Nat := lineStart cs (l + 1) - lineStart cs l

/-- `Rope::line(l).len_chars()`, panicking when `l` is out of bounds
exactly as `Rope::line` does. -/
def ropeLineLen (cs : Body) (l : Nat) : Outcome Nat :=
  if l < numLines cs then .ok (lineLen cs l) else .crash

/-- `text.slice(i..j)` of `ropey`: panics unless `i ≤ j ≤ len`. -/
def ropeSlice (cs : Body) (i j : Nat) : Outcome Body :=
  if i ≤ j ∧ j ≤ cs.length then .ok ((cs.drop i).take (j - i)) else .crash

/-- `Rope::remove(i..j)`: panics unless `i ≤ j ≤ len`. -/
def ropeRemove (cs : Body) (i j : Nat) : Outcome Body :=
  if i ≤ j ∧ j ≤ cs.length then .ok (cs.take i ++ cs.drop j) else .crash

/-- `Rope::insert(i, s)`: panics unless `i ≤ len`. -/
def ropeInsert (cs : Body) (i : Nat) (s : Body) : Outcome Body :=
  if i ≤ cs.length then .ok (cs.take i ++ s ++ cs.drop i) else .crash

/-- The symbolic position descriptors (`pub enum Addr`, identical in
both drafts). -/
inductive Addr : Type where
  | Index (i : Nat)
  | Coordinates (line column : Nat)
  | LineStart (line : Nat)
  | LineEnd (line : Nat)
  | BufferStart
  | BufferEnd
  deriving DecidableEq

/-- `Addr::as_index`, with identical logic in `src/text.rs` (lines
19-35) and `src/main.rs` (lines 18-30).  `BufferEnd` computes
`text.len_chars() - 1`, a `usize` underflow on an empty body. -/
def Addr.as_index : Addr → Body → Outcome Nat
  | .Index idx, _ => .ok idx
  | .Coordinates line column, cs =>
    match tryLineToChar cs line with
    | .ok idx => .ok (idx + column)
    | .err e => .err e
    | .crash => .crash
  | .LineStart line, cs => tryLineToChar cs line
  | .LineEnd line, cs =>
    match tryLineToChar cs line with
    | .ok s =>
      match ropeLineLen cs line with
      | .ok n => .ok (s + n)
      | .err e => .err e
      | .crash => .crash
    | .err e => .err e
    | .crash => .crash
  | .BufferStart, _ => .ok 0
  | .BufferEnd, cs => checkedSub cs.length 1

/-- `Addr::as_coordinates`, with identical logic in both drafts. -/
def Addr.as_coordinates : Addr → Body → Outcome (Nat × Nat)
  | .Index idx, cs =>
    match tryCharToLine cs idx with
    | .ok line =>
      match tryLineToChar cs line with
      | .ok s =>
        match checkedSub idx s with
        | .ok column => .ok (line, column)
        | .err e => .err e
        | .crash => .crash
      | .err e => .err e
      | .crash => .crash
    | .err e => .err e
    | .crash => .crash
  | .Coordinates line column, _ => .ok (line, column)
  | .LineStart line, _ => .ok (line, 0)
  | .LineEnd line, cs =>
    match ropeLineLen cs line with
    | .ok n =>
      match checkedSub n 1 with
      | .ok column => .ok (line, column)
      | .err e => .err e
      | .crash => .crash
    | .err e => .err e
    | .crash => .crash
  | .BufferStart, _ => .ok (0, 0)
  | .BufferEnd, cs =>
    match checkedSub cs.length 1 with
    | .ok last =>
      match tryCharToLine cs last with
      | .ok line =>
        match tryLineToChar cs line with
        | .ok s =>
          match checkedSub last s with
          | .ok column => .ok (line, column)
          | .err e => .err e
          | .crash => .crash
        | .err e => .err e
        | .crash => .crash
      | .err e => .err e
      | .crash => .crash
    | .err e => .err e
    | .crash => .crash

/-- The selection (`pub struct Dot`) of both drafts: a pair of
addresses.  `from` is a Lean keyword, hence the field name `from_`. -/
structure Dot where
  from_ : Addr
  to_ : Addr
  deriving DecidableEq

/-- Modelled from the spec: the repository's test fixture
`tests/test.txt` is not under `src/`; section 8 of the spec gives the
buffer text used by every scenario, reproduced here verbatim (49
characters, no trailing newline). -/
def testBody : Body := "Hello there !\nHow are you ?\nI test a text editor.".data

namespace Text

/-- `Addr::move_left` from `src/text.rs` lines 58-69: errors with
`CharIndexOutOfBounds(0, len)` when the resolved index is below `n`,
otherwise re-resolves (the source calls `as_index` twice) and
subtracts. -/
def Addr.move_left (a : Addr) (cs : Body) (n : Nat) : Outcome Addr :=
  match a.as_index cs with
  | .ok i =>
    if i < n then .err (.charIndexOutOfBounds 0 cs.length)
    else
      match a.as_index cs with
      | .ok i2 => .ok (.Index (i2 - n))
      | .err e => .err e
      | .crash => .crash
  | .err e => .err e
  | .crash => .crash

/-- `Addr::move_right` from `src/text.rs` lines 81-93: errors with
`CharIndexOutOfBounds(len, len)` when the shifted index would pass the
one-past-the-end position. -/
def Addr.move_right (a : Addr) (cs : Body) (n : Nat) : Outcome Addr :=
  match a.as_index cs with
  | .ok i =>
    if cs.length < i + n then .err (.charIndexOutOfBounds cs.length cs.length)
    else
      match a.as_index cs with
      | .ok i2 => .ok (.Index (i2 + n))
      | .err e => .err e
      | .crash => .crash
  | .err e => .err e
  | .crash => .crash

/-- `Dot::new` from `src/text.rs`. -/
def Dot.new : Dot := { from_ := .BufferStart, to_ := .BufferEnd }

/-- `Dot::left_right` from `src/text.rs`; the assignment to `from`
sticks even when resolving `right` fails afterwards. -/
def Dot.left_right (d : Dot) (cs : Body) (left right : Addr) : Dot × Outcome Unit :=
  match left.as_index cs with
  | .ok i =>
    let d1 : Dot := { d with from_ := .Index i }
    match right.as_index cs with
    | .ok j => ({ d1 with to_ := .Index j }, .ok ())
    | .err e => (d1, .err e)
    | .crash => (d1, .crash)
  | .err e => (d, .err e)
  | .crash => (d, .crash)

/-- `Dot::anchor_left` from `src/text.rs` lines 116-120; the anchor is
resolved twice, as in the source, and the assignment to `from` sticks
even when a later resolution fails. -/
def Dot.anchor_left (d : Dot) (cs : Body) (anchor to' : Addr) : Dot × Outcome Unit :=
  match anchor.as_index cs with
  | .ok a =>
    let d1 : Dot := { d with from_ := .Index a }
    match anchor.as_index cs with
    | .ok a2 =>
      match to'.as_index cs with
      | .ok w => ({ d1 with to_ := .Index (a2 + w) }, .ok ())
      | .err e => (d1, .err e)
      | .crash => (d1, .crash)
    | .err e => (d1, .err e)
    | .crash => (d1, .crash)
  | .err e => (d, .err e)
  | .crash => (d, .crash)

/-- `Dot::anchor_right` from `src/text.rs`: `anchor - from` is a `usize`
subtraction, so a width larger than the anchor underflows. -/
def Dot.anchor_right (d : Dot) (cs : Body) (from' anchor : Addr) : Dot × Outcome Unit :=
  match anchor.as_index cs with
  | .ok a =>
    match from'.as_index cs with
    | .ok w =>
      match checkedSub a w with
      | .ok i =>
        let d1 : Dot := { d with from_ := .Index i }
        match anchor.as_index cs with
        | .ok a2 => ({ d1 with to_ := .Index a2 }, .ok ())
        | .err e => (d1, .err e)
        | .crash => (d1, .crash)
      | .err e => (d, .err e)
      | .crash => (d, .crash)
    | .err e => (d, .err e)
    | .crash => (d, .crash)
  | .err e => (d, .err e)
  | .crash => (d, .crash)

/-- `Dot::move_left` from `src/text.rs` lines 128-132: shifts `from` and
then `to`; a failure on `to` leaves `from` already shifted. -/
def Dot.move_left (d : Dot) (cs : Body) (n : Nat) : Dot × Outcome Unit :=
  match Addr.move_left d.from_ cs n with
  | .ok f =>
    match Addr.move_left d.to_ cs n with
    | .ok t => ({ from_ := f, to_ := t }, .ok ())
    | .err e => ({ d with from_ := f }, .err e)
    | .crash => ({ d with from_ := f }, .crash)
  | .err e => (d, .err e)
  | .crash => (d, .crash)

/-- `Dot::move_right` from `src/text.rs` lines 134-138: shifts `from`
and then `to`; a failure on `to` leaves `from` already shifted. -/
def Dot.move_right (d : Dot) (cs : Body) (n : Nat) : Dot × Outcome Unit :=
  match Addr.move_right d.from_ cs n with
  | .ok f =>
    match Addr.move_right d.to_ cs n with
    | .ok t => ({ from_ := f, to_ := t }, .ok ())
    | .err e => ({ d with from_ := f }, .err e)
    | .crash => ({ d with from_ := f }, .crash)
  | .err e => (d, .err e)
  | .crash => (d, .crash)

/-- `Dot::extend_left` from `src/text.rs` lines 140-143: moves only
`to`, with no re-normalisation of the endpoint order. -/
def Dot.extend_left (d : Dot) (cs : Body) (n : Nat) : Dot × Outcome Unit :=
  match Addr.move_left d.to_ cs n with
  | .ok t => ({ d with to_ := t }, .ok ())
  | .err e => (d, .err e)
  | .crash => (d, .crash)

/-- `Dot::extend_right` from `src/text.rs` lines 145-148: moves only
`from`, with no re-normalisation of the endpoint order. -/
def Dot.extend_right (d : Dot) (cs : Body) (n : Nat) : Dot × Outcome Unit :=
  match Addr.move_right d.from_ cs n with
  | .ok f => ({ d with from_ := f }, .ok ())
  | .err e => (d, .err e)
  | .crash => (d, .crash)

/-- `Dot::trim_left` from `src/text.rs` lines 150-156: pushes `to` right
by `n`, then swaps the endpoints when the resolved pair is inverted. -/
def Dot.trim_left (d : Dot) (cs : Body) (n : Nat) : Dot × Outcome Unit :=
  match Addr.move_right d.to_ cs n with
  | .ok t =>
    let d1 : Dot := { d with to_ := t }
    match Addr.as_index d1.to_ cs with
    | .ok tj =>
      match Addr.as_index d1.from_ cs with
      | .ok fi =>
        if tj < fi then ({ from_ := d1.to_, to_ := d1.from_ }, .ok ()) else (d1, .ok ())
      | .err e => (d1, .err e)
      | .crash => (d1, .crash)
    | .err e => (d1, .err e)
    | .crash => (d1, .crash)
  | .err e => (d, .err e)
  | .crash => (d, .crash)

/-- `Dot::trim_right` from `src/text.rs` lines 158-164: pushes `from`
left by `n`, then swaps the endpoints when the resolved pair is
inverted. -/
def Dot.trim_right (d : Dot) (cs : Body) (n : Nat) : Dot × Outcome Unit :=
  match Addr.move_left d.from_ cs n with
  | .ok f =>
    let d1 : Dot := { d with from_ := f }
    match Addr.as_index d1.from_ cs with
    | .ok fi =>
      match Addr.as_index d1.to_ cs with
      | .ok tj =>
        if tj < fi then ({ from_ := d1.to_, to_ := d1.from_ }, .ok ()) else (d1, .ok ())
      | .err e => (d1, .err e)
      | .crash => (d1, .crash)
    | .err e => (d1, .err e)
    | .crash => (d1, .crash)
  | .err e => (d, .err e)
  | .crash => (d, .crash)

/-- `Buffer::get` from `src/text.rs` lines 203-209: slices the body over
the dot's resolved `[from, to)`. -/
def Buffer.get (cs : Body) (d : Dot) : Outcome Body :=
  match Addr.as_index d.from_ cs with
  | .ok i =>
    match Addr.as_index d.to_ cs with
    | .ok j => ropeSlice cs i j
    | .err e => .err e
    | .crash => .crash
  | .err e => .err e
  | .crash => .crash

/-- `Buffer::set` from `src/text.rs` lines 211-219: removes the dot's
resolved span and inserts the replacement at `from`; the dot itself is
never updated. -/
def Buffer.set (cs : Body) (d : Dot) (s : Body) : Outcome Body :=
  match Addr.as_index d.from_ cs with
  | .ok i =>
    match Addr.as_index d.to_ cs with
    | .ok j =>
      match ropeRemove cs i j with
      | .ok cs1 => ropeInsert cs1 i s
      | .err e => .err e
      | .crash => .crash
    | .err e => .err e
    | .crash => .crash
  | .err e => .err e
  | .crash => .crash

end Text

namespace Main

/-- `Addr::move_left` from `src/main.rs` lines 51-54: no bounds check,
and the index is shifted by `+ n` (left and right are swapped relative
to the `src/text.rs` draft). -/
def Addr.move_left (a : Addr) (cs : Body) (n : Nat) : Outcome Addr :=
  match a.as_index cs with
  | .ok i => .ok (.Index (i + n))
  | .err e => .err e
  | .crash => .crash

/-- `Addr::move_right` from `src/main.rs` lines 56-59: no bounds check;
`idx - n` is a `usize` subtraction. -/
def Addr.move_right (a : Addr) (cs : Body) (n : Nat) : Outcome Addr :=
  match a.as_index cs with
  | .ok i =>
    match checkedSub i n with
    | .ok i2 => .ok (.Index i2)
    | .err e => .err e
    | .crash => .crash
  | .err e => .err e
  | .crash => .crash

/-- `Dot::move_left` from `src/main.rs` lines 92-96. -/
def Dot.move_left (d : Dot) (cs : Body) (n : Nat) : Dot × Outcome Unit :=
  match Addr.move_left d.from_ cs n with
  | .ok f =>
    match Addr.move_left d.to_ cs n with
    | .ok t => ({ from_ := f, to_ := t }, .ok ())
    | .err e => ({ d with from_ := f }, .err e)
    | .crash => ({ d with from_ := f }, .crash)
  | .err e => (d, .err e)
  | .crash => (d, .crash)

/-- `Dot::move_right` from `src/main.rs` lines 98-102. -/
def Dot.move_right (d : Dot) (cs : Body) (n : Nat) : Dot × Outcome Unit :=
  match Addr.move_right d.from_ cs n with
  | .ok f =>
    match Addr.move_right d.to_ cs n with
    | .ok t => ({ from_ := f, to_ := t }, .ok ())
    | .err e => ({ d with from_ := f }, .err e)
    | .crash => ({ d with from_ := f }, .crash)
  | .err e => (d, .err e)
  | .crash => (d, .crash)

/-- `Dot::set` from `src/main.rs` lines 138-145: splices the body; the
dot's `from`/`to` are not updated. -/
def Dot.set (d : Dot) (cs : Body) (s : Body) : Outcome Body :=
  match Addr.as_index d.from_ cs with
  | .ok i =>
    match Addr.as_index d.to_ cs with
    | .ok j =>
      match ropeRemove cs i j with
      | .ok cs1 => ropeInsert cs1 i s
      | .err e => .err e
      | .crash => .crash
    | .err e => .err e
    | .crash => .crash
  | .err e => .err e
  | .crash => .crash

/-- The `self.dot.iter_mut().for_each(|dot| { let _ = ... })` loops of
`src/main.rs`: each dot's final state is kept, its error result is
discarded by `let _ =`, and a panic aborts the whole program. -/
def forEachDot (f : Dot → Dot × Outcome Unit) : List Dot → Outcome (List Dot)
  | [] => .ok []
  | d :: ds =>
    match f d with
    | (d1, .ok _) =>
      match forEachDot f ds with
      | .ok ds1 => .ok (d1 :: ds1)
      | .err e => .err e
      | .crash => .crash
    | (d1, .err _) =>
      match forEachDot f ds with
      | .ok ds1 => .ok (d1 :: ds1)
      | .err e => .err e
      | .crash => .crash
    | (_, .crash) => .crash

/-- `pub struct Buffer` from `src/main.rs`: the body plus its dots. -/
structure Buffer where
  text : Body
  dot : List Dot
  deriving DecidableEq

/-- `Buffer::move_left` from `src/main.rs` lines 204-208: applies
`Dot::move_left` to every dot, discarding each dot's error result. -/
def Buffer.move_left (b : Buffer) (n : Nat) : Outcome Buffer :=
  match forEachDot (fun d => Dot.move_left d b.text n) b.dot with
  | .ok ds => .ok { b with dot := ds }
  | .err e => .err e
  | .crash => .crash

/-- State threading for `Buffer::set` from `src/main.rs`: every dot
splices the shared body in turn; per-dot errors are discarded. -/
def setDots (s : Body) : List Dot → Body → Outcome Body
  | [], cs => .ok cs
  | d :: ds, cs =>
    match Dot.set d cs s with
    | .ok cs1 => setDots s ds cs1
    | .err _ => setDots s ds cs
    | .crash => .crash

/-- `Buffer::set` from `src/main.rs` lines 244-248: every dot performs
the replacement on the shared body, with per-dot failures silently
dropped (`let _ =`). -/
def Buffer.set (b : Buffer) (s : Body) : Outcome Buffer :=
  match setDots s b.dot b.text with
  | .ok cs => .ok { b with text := cs }
  | .err e => .err e
  | .crash => .crash

end Main

/-! ### Helper lemmas about the line structure of a body -/

theorem numLines_pos (cs : Body) : 0 < numLines cs := by
  induction cs with
  | nil => simp [numLines]
  | cons c cs ih => by_cases h : c = '\n' <;> simp [numLines, h] <;> omega

theorem lineStart_zero (cs : Body) : lineStart cs 0 = 0 := by
  cases cs <;> rfl

theorem lineStart_le_length (cs : Body) : ∀ l, lineStart cs l ≤ cs.length := by
  induction cs with
  | nil => intro l; cases l <;> simp [lineStart]
  | cons c cs ih =>
    intro l
    cases l with
    | zero => simp [lineStart]
    | succ l =>
      by_cases h : c = '\n'
      · have := ih l; simp [lineStart, h]; omega
      · have := ih (l + 1); simp [lineStart, h]; omega

theorem lineStart_mono_succ (cs : Body) : ∀ l, lineStart cs l ≤ lineStart cs (l + 1) := by
  induction cs with
  | nil => intro l; cases l <;> simp [lineStart]
  | cons c cs ih =>
    intro l
    cases l with
    | zero => simp [lineStart]
    | succ l =>
      by_cases h : c = '\n'
      · have := ih l; simp [lineStart, h]; omega
      · have := ih (l + 1); simp [lineStart, h]; omega

theorem charToLine_lineStart_add :
    ∀ (cs : Body) (l c : Nat), l < numLines cs →
      lineStart cs l + c < lineStart cs (l + 1) →
      charToLine cs (lineStart cs l + c) = l := by
  intro cs
  induction cs with
  | nil =>
    intro l c _ hc
    cases l <;> simp [lineStart] at hc
  | cons ch cs ih =>
    intro l c hl hc
    cases l with
    | zero =>
      rw [lineStart_zero] at hc ⊢
      by_cases h : ch = '\n'
      · simp [lineStart, h, lineStart_zero] at hc
        have hc0 : c = 0 := by omega
        subst hc0
        simp [charToLine]
      · simp [lineStart, h] at hc
        cases c with
        | zero => simp [charToLine]
        | succ c =>
          have ihz := ih 0 c (numLines_pos cs)
          rw [lineStart_zero] at ihz
          simp only [Nat.zero_add] at ihz
          simp [charToLine, h]
          simpa using ihz (by omega)
    | succ l =>
      by_cases h : ch = '\n'
      · have hl' : l < numLines cs := by simp [numLines, h] at hl; omega
        have hc' : lineStart cs l + c < lineStart cs (l + 1) := by
          simp only [lineStart, if_pos h] at hc; omega
        have hgoal : lineStart (ch :: cs) (l + 1) + c = (lineStart cs l + c) + 1 := by
          simp only [lineStart, if_pos h]; omega
        rw [hgoal]
        simp only [charToLine, if_pos h]
        rw [ih l c hl' hc']
        omega
      · have hl' : l + 1 < numLines cs := by simpa [numLines, h] using hl
        have hc' : lineStart cs (l + 1) + c < lineStart cs (l + 1 + 1) := by
          simp only [lineStart, if_neg h] at hc; omega
        have hgoal : lineStart (ch :: cs) (l + 1) + c = (lineStart cs (l + 1) + c) + 1 := by
          simp only [lineStart, if_neg h]; omega
        rw [hgoal]
        simp only [charToLine, if_neg h]
        rw [ih (l + 1) c hl' hc']
        omega

/-! ### Inversion and computation lemmas for the `src/text.rs` operations -/

theorem text_addr_move_left_ok {a : Addr} {cs : Body} {n : Nat} {a' : Addr}
    (h : Text.Addr.move_left a cs n = .ok a') :
    ∃ i, a.as_index cs = .ok i ∧ n ≤ i ∧ a' = .Index (i - n) := by
  unfold Text.Addr.move_left at h
  split at h
  · rename_i i hi
    split at h
    · simp at h
    · rename_i hlt
      simp at h
      exact ⟨i, hi, Nat.not_lt.mp hlt, h.symm⟩
  · simp at h
  · simp at h

theorem text_addr_move_right_ok {a : Addr} {cs : Body} {n : Nat} {a' : Addr}
    (h : Text.Addr.move_right a cs n = .ok a') :
    ∃ i, a.as_index cs = .ok i ∧ i + n ≤ cs.length ∧ a' = .Index (i + n) := by
  unfold Text.Addr.move_right at h
  split at h
  · rename_i i hi
    split at h
    · simp at h
    · rename_i hlt
      simp at h
      exact ⟨i, hi, Nat.not_lt.mp hlt, h.symm⟩
  · simp at h
  · simp at h

theorem text_dot_move_left_ok {d : Dot} {cs : Body} {n : Nat} {d1 : Dot}
    (h : Text.Dot.move_left d cs n = (d1, .ok ())) :
    ∃ f t, Text.Addr.move_left d.from_ cs n = .ok f ∧
      Text.Addr.move_left d.to_ cs n = .ok t ∧ d1 = ⟨f, t⟩ := by
  unfold Text.Dot.move_left at h
  split at h
  · rename_i f hf
    split at h
    · rename_i t ht
      simp at h
      exact ⟨f, t, hf, ht, h.symm⟩
    · simp at h
    · simp at h
  · simp at h
  · simp at h

theorem text_dot_move_right_ok {d : Dot} {cs : Body} {n : Nat} {d1 : Dot}
    (h : Text.Dot.move_right d cs n = (d1, .ok ())) :
    ∃ f t, Text.Addr.move_right d.from_ cs n = .ok f ∧
      Text.Addr.move_right d.to_ cs n = .ok t ∧ d1 = ⟨f, t⟩ := by
  unfold Text.Dot.move_right at h
  split at h
  · rename_i f hf
    split at h
    · rename_i t ht
      simp at h
      exact ⟨f, t, hf, ht, h.symm⟩
    · simp at h
    · simp at h
  · simp at h
  · simp at h

theorem text_addr_move_left_eq {a : Addr} {cs : Body} {n i : Nat}
    (hi : a.as_index cs = .ok i) (hn : n ≤ i) :
    Text.Addr.move_left a cs n = .ok (.Index (i - n)) := by
  unfold Text.Addr.move_left
  rw [hi]
  simp [Nat.not_lt.mpr hn]

theorem text_addr_move_left_err {a : Addr} {cs : Body} {n i : Nat}
    (hi : a.as_index cs = .ok i) (hn : i < n) :
    Text.Addr.move_left a cs n = .err (.charIndexOutOfBounds 0 cs.length) := by
  unfold Text.Addr.move_left
  rw [hi]
  simp [hn]

theorem text_addr_move_right_eq {a : Addr} {cs : Body} {n i : Nat}
    (hi : a.as_index cs = .ok i) (hn : i + n ≤ cs.length) :
    Text.Addr.move_right a cs n = .ok (.Index (i + n)) := by
  unfold Text.Addr.move_right
  rw [hi]
  simp [Nat.not_lt.mpr hn]

theorem text_addr_move_right_err {a : Addr} {cs : Body} {n i : Nat}
    (hi : a.as_index cs = .ok i) (hn : cs.length < i + n) :
    Text.Addr.move_right a cs n = .err (.charIndexOutOfBounds cs.length cs.length) := by
  unfold Text.Addr.move_right
  rw [hi]
  simp [hn]

theorem main_forEachDot_ne_err (f : Dot → Dot × Outcome Unit) (ds : List Dot) (e : RopeErr) :
    Main.forEachDot f ds ≠ .err e := by
  induction ds with
  | nil => simp [Main.forEachDot]
  | cons d ds ih =>
    intro h
    unfold Main.forEachDot at h
    split at h
    · split at h
      · simp at h
      · rename_i e1 he1
        injection h with h2
        subst h2
        exact ih he1
      · simp at h
    · split at h
      · simp at h
      · rename_i e1 he1
        injection h with h2
        subst h2
        exact ih he1
      · simp at h
    · simp at h

theorem main_setDots_ne_err (s : Body) (ds : List Dot) : ∀ (cs : Body) (e : RopeErr),
    Main.setDots s ds cs ≠ .err e := by
  induction ds with
  | nil => intro cs e; simp [Main.setDots]
  | cons d ds ih =>
    intro cs e h
    unfold Main.setDots at h
    split at h
    · exact ih _ e h
    · exact ih _ e h
    · simp at h

/-! ### Claim theorems -/

/-- Claim C1: the claim states that `BufferEnd` always resolves through
`as_index` to the body's total character count; the code resolves it to
the count minus one.  On the spec's scenario body (the modelled
`tests/test.txt` fixture, 49 characters) `BufferEnd` resolves to 48, so
the whole-buffer selection built by `left_right(BufferStart, BufferEnd)`
drops the final character, contradicting the repository's own
`test_buffer_from_file` assertion that this selection reads back the
complete text. -/
theorem c1_bufferEnd_resolves_one_short :
    testBody.length = 49 ∧
    Addr.as_index .BufferEnd testBody = .ok 48 ∧
    Text.Dot.left_right Text.Dot.new testBody .BufferStart .BufferEnd =
      ({ from_ := .Index 0, to_ := .Index 48 }, .ok ()) ∧
    Text.Buffer.get testBody { from_ := .Index 0, to_ := .Index 48 } ≠ .ok testBody := by
  decide

/-- Claim C2 (amended): on a Dot whose resolved endpoints satisfy
`from ≤ to`, every successful `move_left`, `move_right`, `trim_left` or
`trim_right` leaves resolved endpoints with `from ≤ to`; the claim's
inclusion of `extend_left`/`extend_right` fails because those two
operations never re-normalise the pair. -/
theorem c2_order_preserved_except_extend (d : Dot) (cs : Body) (i j : Nat)
    (hf : Addr.as_index d.from_ cs = .ok i) (ht : Addr.as_index d.to_ cs = .ok j)
    (hij : i ≤ j) :
    (∀ n d1, Text.Dot.move_left d cs n = (d1, .ok ()) →
        ∃ i1 j1, Addr.as_index d1.from_ cs = .ok i1 ∧
          Addr.as_index d1.to_ cs = .ok j1 ∧ i1 ≤ j1) ∧
    (∀ n d1, Text.Dot.move_right d cs n = (d1, .ok ()) →
        ∃ i1 j1, Addr.as_index d1.from_ cs = .ok i1 ∧
          Addr.as_index d1.to_ cs = .ok j1 ∧ i1 ≤ j1) ∧
    (∀ n d1, Text.Dot.trim_left d cs n = (d1, .ok ()) →
        ∃ i1 j1, Addr.as_index d1.from_ cs = .ok i1 ∧
          Addr.as_index d1.to_ cs = .ok j1 ∧ i1 ≤ j1) ∧
    (∀ n d1, Text.Dot.trim_right d cs n = (d1, .ok ()) →
        ∃ i1 j1, Addr.as_index d1.from_ cs = .ok i1 ∧
          Addr.as_index d1.to_ cs = .ok j1 ∧ i1 ≤ j1) := by
  refine ⟨?_, ?_, ?_, ?_⟩
  · intro n d1 h
    obtain ⟨f, t, hmf, hmt, rfl⟩ := text_dot_move_left_ok h
    obtain ⟨i0, hi0, hn0, rfl⟩ := text_addr_move_left_ok hmf
    obtain ⟨j0, hj0, hn1, rfl⟩ := text_addr_move_left_ok hmt
    rw [hf] at hi0
    rw [ht] at hj0
    injection hi0 with e1
    injection hj0 with e2
    subst e1
    subst e2
    exact ⟨i - n, j - n, by simp [Addr.as_index], by simp [Addr.as_index], by omega⟩
  · intro n d1 h
    obtain ⟨f, t, hmf, hmt, rfl⟩ := text_dot_move_right_ok h
    obtain ⟨i0, hi0, hn0, rfl⟩ := text_addr_move_right_ok hmf
    obtain ⟨j0, hj0, hn1, rfl⟩ := text_addr_move_right_ok hmt
    rw [hf] at hi0
    rw [ht] at hj0
    injection hi0 with e1
    injection hj0 with e2
    subst e1
    subst e2
    exact ⟨i + n, j + n, by simp [Addr.as_index], by simp [Addr.as_index], by omega⟩
  · intro n d1 h
    unfold Text.Dot.trim_left at h
    split at h
    · rename_i t hmt
      obtain ⟨j0, hj0, hb, rfl⟩ := text_addr_move_right_ok hmt
      rw [ht] at hj0
      injection hj0 with e
      subst e
      have hidx : Addr.as_index (Addr.Index (j + n)) cs = Outcome.ok (j + n) := rfl
      simp only [hidx, hf] at h
      rw [if_neg (by omega : ¬ (j + n < i))] at h
      simp at h
      subst h
      exact ⟨i, j + n, by simpa using hf, by simp [Addr.as_index], by omega⟩
    · simp at h
    · simp at h
  · intro n d1 h
    unfold Text.Dot.trim_right at h
    split at h
    · rename_i f hmf
      obtain ⟨i0, hi0, hb, rfl⟩ := text_addr_move_left_ok hmf
      rw [hf] at hi0
      injection hi0 with e
      subst e
      have hidx : Addr.as_index (Addr.Index (i - n)) cs = Outcome.ok (i - n) := rfl
      simp only [hidx, ht] at h
      rw [if_neg (by omega : ¬ (j < i - n))] at h
      simp at h
      subst h
      exact ⟨i - n, j, by simp [Addr.as_index], by simpa using ht, by omega⟩
    · simp at h
    · simp at h

/-- Claim C2 witness: on the body `"Hello"` and the Dot `(1, 2)`, each
of the four covered operations succeeds with ordered endpoints. -/
theorem c2_order_preserved_except_extend_witness :
    (∃ i1 j1, Addr.as_index ({ from_ := Addr.Index 0, to_ := Addr.Index 1 } : Dot).from_
        "Hello".data = .ok i1 ∧
      Addr.as_index ({ from_ := Addr.Index 0, to_ := Addr.Index 1 } : Dot).to_
        "Hello".data = .ok j1 ∧ i1 ≤ j1) ∧
    (∃ i1 j1, Addr.as_index ({ from_ := Addr.Index 3, to_ := Addr.Index 4 } : Dot).from_
        "Hello".data = .ok i1 ∧
      Addr.as_index ({ from_ := Addr.Index 3, to_ := Addr.Index 4 } : Dot).to_
        "Hello".data = .ok j1 ∧ i1 ≤ j1) ∧
    (∃ i1 j1, Addr.as_index ({ from_ := Addr.Index 1, to_ := Addr.Index 3 } : Dot).from_
        "Hello".data = .ok i1 ∧
      Addr.as_index ({ from_ := Addr.Index 1, to_ := Addr.Index 3 } : Dot).to_
        "Hello".data = .ok j1 ∧ i1 ≤ j1) ∧
    (∃ i1 j1, Addr.as_index ({ from_ := Addr.Index 0, to_ := Addr.Index 2 } : Dot).from_
        "Hello".data = .ok i1 ∧
      Addr.as_index ({ from_ := Addr.Index 0, to_ := Addr.Index 2 } : Dot).to_
        "Hello".data = .ok j1 ∧ i1 ≤ j1) := by
  have h := c2_order_preserved_except_extend
    { from_ := .Index 1, to_ := .Index 2 } "Hello".data 1 2 rfl rfl (by decide)
  exact ⟨h.1 1 _ (by decide), h.2.1 2 _ (by decide),
    h.2.2.1 1 _ (by decide), h.2.2.2 1 _ (by decide)⟩

/-- Claim C2 counterexample: on the body `"Hello"`, `extend_left(3)`
applied to the ordered Dot `(2, 4)` succeeds and leaves the inverted
pair `(2, 1)`, so not every successful mutating operation re-normalises
the endpoints. -/
theorem c2_extend_left_leaves_inverted :
    Text.Dot.extend_left { from_ := .Index 2, to_ := .Index 4 } "Hello".data 3 =
      ({ from_ := .Index 2, to_ := .Index 1 }, .ok ()) ∧
    Addr.as_index ({ from_ := Addr.Index 2, to_ := Addr.Index 1 } : Dot).from_
      "Hello".data = .ok 2 ∧
    Addr.as_index ({ from_ := Addr.Index 2, to_ := Addr.Index 1 } : Dot).to_
      "Hello".data = .ok 1 ∧
    ¬ (2 ≤ 1) := by
  decide

/-- Claim C3 (amended): with resolved endpoints `i ≤ j ≤ len`,
`Buffer::set` replaces the span `[i, j)` of the body by the replacement
(an atomic remove-plus-insert).  The Dot itself is never updated by
`set`, so its own `[from, to)` is NOT redefined to bound the inserted
text; a subsequent `get` over the index pair `(i, j)` returns the
replacement only when the replacement's length equals `j - i`. -/
theorem c3_set_splices_dot_not_updated (cs : Body) (d : Dot) (s : Body) (i j : Nat)
    (hf : Addr.as_index d.from_ cs = .ok i) (ht : Addr.as_index d.to_ cs = .ok j)
    (hij : i ≤ j) (hj : j ≤ cs.length) :
    Text.Buffer.set cs d s = .ok (cs.take i ++ s ++ cs.drop j) ∧
      (s.length = j - i →
        Text.Buffer.get (cs.take i ++ s ++ cs.drop j) ⟨.Index i, .Index j⟩ = .ok s) := by
  have hlen_take : (cs.take i).length = i := by
    rw [List.length_take]
    omega
  constructor
  · have hrem : ropeRemove cs i j = .ok (cs.take i ++ cs.drop j) := by
      unfold ropeRemove
      rw [if_pos ⟨hij, hj⟩]
    have hins : ropeInsert (cs.take i ++ cs.drop j) i s = .ok (cs.take i ++ s ++ cs.drop j) := by
      unfold ropeInsert
      rw [if_pos (by rw [List.length_append, hlen_take]; omega)]
      rw [List.take_left' hlen_take, List.drop_left' hlen_take]
    simp only [Text.Buffer.set, hf, ht, hrem, hins]
  · intro hs
    unfold Text.Buffer.get
    simp only [Addr.as_index]
    unfold ropeSlice
    rw [if_pos ⟨hij, by simp only [List.length_append, hlen_take, hs]; omega⟩]
    have hdrop : (cs.take i ++ s ++ cs.drop j).drop i = s ++ cs.drop j := by
      rw [List.append_assoc, List.drop_left' hlen_take]
    rw [hdrop, List.take_left' hs]

/-- Claim C3 witness: replacing `[0, 5)` of `"Hello world"` by the
equally long `"Howdy"` splices the body, and reading `[0, 5)` back from
the new body returns the replacement. -/
theorem c3_set_splices_dot_not_updated_witness :
    Text.Buffer.set "Hello world".data { from_ := Addr.Index 0, to_ := Addr.Index 5 }
      "Howdy".data = .ok "Howdy world".data ∧
    Text.Buffer.get "Howdy world".data
      ({ from_ := Addr.Index 0, to_ := Addr.Index 5 } : Dot) = .ok "Howdy".data := by
  have h := c3_set_splices_dot_not_updated "Hello world".data
    { from_ := .Index 0, to_ := .Index 5 } "Howdy".data 0 5 rfl rfl
    (by decide) (by decide)
  exact ⟨h.1, h.2 (by decide)⟩

/-- Claim C3 counterexample: replacing `[0, 5)` of `"Hello world"` by
the shorter `"Hi"` leaves the Dot's endpoints untouched, so the
subsequent `get` over the same Dot returns `"Hi wo"`, not the
replacement `"Hi"`: the Dot's range is not redefined to bound the
inserted text. -/
theorem c3_get_after_set_not_replacement :
    Text.Buffer.set "Hello world".data { from_ := .Index 0, to_ := .Index 5 } "Hi".data =
      .ok "Hi world".data ∧
    Text.Buffer.get "Hi world".data { from_ := .Index 0, to_ := .Index 5 } =
      .ok "Hi wo".data ∧
    "Hi wo".data ≠ "Hi".data := by
  decide

/-- Claim C4 (amended): when the larger endpoint's resolved index plus
`n` exceeds the body length, `Dot::move_right(n)` fails with the bounds
error `CharIndexOutOfBounds(len, len)`; but the smaller endpoint is NOT
always left as it was: if `from + n` still fits, `from` has already been
shifted when the failure on `to` is detected, so the Dot is left
partially updated; both endpoints stay unchanged only when `from + n`
also exceeds the length. -/
theorem c4_move_right_error_partial_shift (d : Dot) (cs : Body) (i j n : Nat)
    (hf : Addr.as_index d.from_ cs = .ok i) (ht : Addr.as_index d.to_ cs = .ok j)
    (hij : i ≤ j) (hover : cs.length < j + n) :
    Text.Dot.move_right d cs n =
      (if i + n ≤ cs.length then { from_ := .Index (i + n), to_ := d.to_ } else d,
       .err (.charIndexOutOfBounds cs.length cs.length)) := by
  by_cases hin : i + n ≤ cs.length
  · rw [if_pos hin]
    have h1 := text_addr_move_right_eq hf hin
    have h2 := text_addr_move_right_err ht hover
    unfold Text.Dot.move_right
    rw [h1, h2]
  · rw [if_neg hin]
    have h1 : Text.Addr.move_right d.from_ cs n =
        .err (.charIndexOutOfBounds cs.length cs.length) :=
      text_addr_move_right_err hf (by omega)
    unfold Text.Dot.move_right
    rw [h1]

/-- Claim C4 witness: on `"Hello"` (length 5), `move_right(3)` on the
Dot `(0, 3)` fails because `3 + 3 > 5`, and leaves `from` already
shifted to 3. -/
theorem c4_move_right_error_partial_shift_witness :
    Text.Dot.move_right { from_ := Addr.Index 0, to_ := Addr.Index 3 } "Hello".data 3 =
      ({ from_ := Addr.Index 3, to_ := Addr.Index 3 }, .err (.charIndexOutOfBounds 5 5)) := by
  have h := c4_move_right_error_partial_shift
    { from_ := .Index 0, to_ := .Index 3 } "Hello".data 0 3 3 rfl rfl
    (by decide) (by decide)
  exact h

/-- Claim C4 counterexample: on `"Hello"` (length 5), `move_right(2)` on
the Dot `(1, 4)` fails with a bounds error but leaves the Dot as
`(3, 4)`: the smaller endpoint was shifted before the failure, so the
operation does not leave both endpoints exactly as they were. -/
theorem c4_move_right_shifts_from_before_failing :
    Text.Dot.move_right { from_ := .Index 1, to_ := .Index 4 } "Hello".data 2 =
      ({ from_ := .Index 3, to_ := .Index 4 }, .err (.charIndexOutOfBounds 5 5)) ∧
    ({ from_ := Addr.Index 3, to_ := Addr.Index 4 } : Dot) ≠
      { from_ := .Index 1, to_ := .Index 4 } := by
  decide

/-- Claim C5: when `n` exceeds the smaller endpoint's resolved index,
`Dot::move_left(n)` fails with the bounds error
`CharIndexOutOfBounds(0, len)` and leaves both endpoints of the Dot
exactly as they were: the failure on `from` is detected before any
assignment, and `to` is never touched. -/
theorem c5_move_left_bounds_failure_unchanged (d : Dot) (cs : Body) (i j n : Nat)
    (hf : Addr.as_index d.from_ cs = .ok i) (ht : Addr.as_index d.to_ cs = .ok j)
    (hij : i ≤ j) (hn : i < n) :
    Text.Dot.move_left d cs n = (d, .err (.charIndexOutOfBounds 0 cs.length)) := by
  have h1 := text_addr_move_left_err hf hn
  unfold Text.Dot.move_left
  rw [h1]

/-- Claim C5 witness, the spec's scenario: on the scenario buffer,
`anchor_left(BufferStart, Index(2))` yields the Dot `(0, 2)`, and the
following `move_left(1)` fails with a bounds error leaving the Dot
unchanged. -/
theorem c5_move_left_bounds_failure_unchanged_witness :
    Text.Dot.anchor_left Text.Dot.new testBody .BufferStart (.Index 2) =
      ({ from_ := .Index 0, to_ := .Index 2 }, .ok ()) ∧
    Text.Dot.move_left { from_ := .Index 0, to_ := .Index 2 } testBody 1 =
      ({ from_ := .Index 0, to_ := .Index 2 }, .err (.charIndexOutOfBounds 0 49)) := by
  refine ⟨by decide, ?_⟩
  exact c5_move_left_bounds_failure_unchanged
    { from_ := .Index 0, to_ := .Index 2 } testBody 0 2 1 rfl rfl
    (by decide) (by decide)

/-- Claim C6: whenever `move_left(n)` succeeds and the following
`move_right(n)` also succeeds on the same body, the Dot's resolved
`(from, to)` pair equals its resolved value before the two moves. -/
theorem c6_move_left_then_right_restores (d : Dot) (cs : Body) (n : Nat) (d1 d2 : Dot)
    (h1 : Text.Dot.move_left d cs n = (d1, .ok ()))
    (h2 : Text.Dot.move_right d1 cs n = (d2, .ok ())) :
    Addr.as_index d2.from_ cs = Addr.as_index d.from_ cs ∧
      Addr.as_index d2.to_ cs = Addr.as_index d.to_ cs := by
  obtain ⟨f, t, hmf, hmt, rfl⟩ := text_dot_move_left_ok h1
  obtain ⟨i, hi, hni, rfl⟩ := text_addr_move_left_ok hmf
  obtain ⟨j, hj, hnj, rfl⟩ := text_addr_move_left_ok hmt
  obtain ⟨f2, t2, hf2, ht2, rfl⟩ := text_dot_move_right_ok h2
  obtain ⟨i2, hi2, hbi, rfl⟩ := text_addr_move_right_ok hf2
  obtain ⟨j2, hj2, hbj, rfl⟩ := text_addr_move_right_ok ht2
  simp only [Addr.as_index, Outcome.ok.injEq] at hi2 hj2
  constructor
  · rw [hi]
    simp only [Addr.as_index, Outcome.ok.injEq]
    omega
  · rw [hj]
    simp only [Addr.as_index, Outcome.ok.injEq]
    omega

/-- Claim C6 witness: on `"Hello"`, `move_left(2)` takes the Dot
`(2, 3)` to `(0, 1)`, `move_right(2)` takes it back, and the resolved
endpoints equal the original ones. -/
theorem c6_move_left_then_right_restores_witness :
    Text.Dot.move_left { from_ := Addr.Index 2, to_ := Addr.Index 3 } "Hello".data 2 =
      ({ from_ := Addr.Index 0, to_ := Addr.Index 1 }, .ok ()) ∧
    Text.Dot.move_right { from_ := Addr.Index 0, to_ := Addr.Index 1 } "Hello".data 2 =
      ({ from_ := Addr.Index 2, to_ := Addr.Index 3 }, .ok ()) ∧
    (Addr.as_index ({ from_ := Addr.Index 2, to_ := Addr.Index 3 } : Dot).from_ "Hello".data =
        Addr.as_index ({ from_ := Addr.Index 2, to_ := Addr.Index 3 } : Dot).from_ "Hello".data ∧
      Addr.as_index ({ from_ := Addr.Index 2, to_ := Addr.Index 3 } : Dot).to_ "Hello".data =
        Addr.as_index ({ from_ := Addr.Index 2, to_ := Addr.Index 3 } : Dot).to_ "Hello".data) := by
  refine ⟨by decide, by decide, ?_⟩
  exact c6_move_left_then_right_restores
    { from_ := .Index 2, to_ := .Index 3 } "Hello".data 2
    { from_ := .Index 0, to_ := .Index 1 } { from_ := .Index 2, to_ := .Index 3 }
    (by decide) (by decide)

/-- Claim C7: for a valid line `l` (below the line count) and a valid
column `c` (below that line's character count), `as_index` resolves
`Coordinates(l, c)` to `start_of(l) + c`, and `as_coordinates` converts
that index back to exactly `(l, c)`. -/
theorem c7_coordinates_roundtrip (cs : Body) (l c : Nat)
    (hl : l < numLines cs) (hc : c < lineLen cs l) :
    Addr.as_index (.Coordinates l c) cs = .ok (lineStart cs l + c) ∧
      Addr.as_coordinates (.Index (lineStart cs l + c)) cs = .ok (l, c) := by
  have h1 : tryLineToChar cs l = .ok (lineStart cs l) := by
    unfold tryLineToChar
    rw [if_pos (Nat.le_of_lt hl)]
  have hix : lineStart cs l + c < lineStart cs (l + 1) := by
    unfold lineLen at hc
    omega
  have hlt : lineStart cs l + c < cs.length :=
    lt_of_lt_of_le hix (lineStart_le_length cs (l + 1))
  have h2 : tryCharToLine cs (lineStart cs l + c) = .ok l := by
    unfold tryCharToLine
    rw [if_pos (Nat.le_of_lt hlt)]
    rw [charToLine_lineStart_add cs l c hl hix]
  have h3 : checkedSub (lineStart cs l + c) (lineStart cs l) = .ok c := by
    unfold checkedSub
    rw [if_pos (Nat.le_add_right _ _)]
    congr 1
    omega
  constructor
  · simp only [Addr.as_index, h1]
  · simp only [Addr.as_coordinates, h2, h1, h3]

/-- Claim C7 witness: on the scenario buffer, `Coordinates(1, 3)`
resolves to index 17 and index 17 converts back to `(1, 3)`. -/
theorem c7_coordinates_roundtrip_witness :
    Addr.as_index (.Coordinates 1 3) testBody = .ok 17 ∧
      Addr.as_coordinates (.Index 17) testBody = .ok (1, 3) :=
  c7_coordinates_roundtrip testBody 1 3 (by decide) (by decide)

/-- Claim C8: `anchor_left(anchor, width)` sets `from` to the resolved
anchor `a` and `to` to `a` plus the resolved width `w`, treating the
width as a length; when `a + w` fits in the body, a following `get`
returns the `w` characters starting at `a`. -/
theorem c8_anchor_left_width_semantics (d : Dot) (cs : Body) (anchor w : Addr) (a n : Nat)
    (ha : Addr.as_index anchor cs = .ok a) (hw : Addr.as_index w cs = .ok n) :
    Text.Dot.anchor_left d cs anchor w =
        ({ from_ := .Index a, to_ := .Index (a + n) }, .ok ()) ∧
      (a + n ≤ cs.length →
        Text.Buffer.get cs { from_ := .Index a, to_ := .Index (a + n) } =
          .ok ((cs.drop a).take n)) := by
  constructor
  · unfold Text.Dot.anchor_left
    rw [ha, hw]
  · intro hle
    unfold Text.Buffer.get
    simp only [Addr.as_index]
    unfold ropeSlice
    rw [if_pos ⟨Nat.le_add_right a n, hle⟩, Nat.add_sub_cancel_left]

/-- Claim C8 witness, the spec's scenario: on the scenario buffer,
`anchor_left(BufferStart, Index(5))` yields the Dot `(0, 5)` and `get`
then returns `"Hello"`. -/
theorem c8_anchor_left_width_semantics_witness :
    Text.Dot.anchor_left Text.Dot.new testBody .BufferStart (.Index 5) =
      ({ from_ := .Index 0, to_ := .Index 5 }, .ok ()) ∧
    Text.Buffer.get testBody { from_ := .Index 0, to_ := .Index 5 } = .ok "Hello".data := by
  have h := c8_anchor_left_width_semantics Text.Dot.new testBody .BufferStart (.Index 5)
    0 5 rfl rfl
  exact ⟨h.1, h.2 (by decide)⟩

/-- Claim C9 (amended): errors detected while resolving an address
during a Dot-level operation are returned as explicit failure results of
that operation (shown here for `Dot::move_left` of `src/main.rs`, which
returns the resolution error and leaves the Dot unchanged); but the
Buffer-level operations of `src/main.rs` that apply an action to every
dot discard each dot's failure (`let _ = ...`) and can never report an
error to the caller. -/
theorem c9_dot_reports_buffer_discards :
    (∀ (d : Dot) (cs : Body) (n : Nat) (e : RopeErr),
        Addr.as_index d.from_ cs = .err e → Main.Dot.move_left d cs n = (d, .err e)) ∧
    (∀ (b : Main.Buffer) (n : Nat) (e : RopeErr), Main.Buffer.move_left b n ≠ .err e) ∧
    (∀ (b : Main.Buffer) (s : Body) (e : RopeErr), Main.Buffer.set b s ≠ .err e) := by
  refine ⟨?_, ?_, ?_⟩
  · intro d cs n e he
    have h1 : Main.Addr.move_left d.from_ cs n = .err e := by
      unfold Main.Addr.move_left
      rw [he]
    unfold Main.Dot.move_left
    rw [h1]
  · intro b n e h
    unfold Main.Buffer.move_left at h
    split at h
    · simp at h
    · rename_i e1 he1
      exact main_forEachDot_ne_err _ _ e1 he1
    · simp at h
  · intro b s e h
    unfold Main.Buffer.set at h
    split at h
    · simp at h
    · rename_i e1 he1
      exact main_setDots_ne_err s _ _ e1 he1
    · simp at h

/-- Claim C9 witness: a Dot whose `from` is the invalid `LineStart(9)`
reports the line error from `move_left`, while the Buffer-level
operations on concrete buffers never return an error value. -/
theorem c9_dot_reports_buffer_discards_witness :
    Main.Dot.move_left { from_ := Addr.LineStart 9, to_ := Addr.Index 0 } "Hi".data 2 =
      ({ from_ := Addr.LineStart 9, to_ := Addr.Index 0 },
        .err (.lineIndexOutOfBounds 9 1)) ∧
    Main.Buffer.move_left { text := [], dot := [] } 0 ≠
      .err (.charIndexOutOfBounds 0 0) ∧
    Main.Buffer.set { text := [], dot := [] } [] ≠
      .err (.charIndexOutOfBounds 0 0) := by
  have h := c9_dot_reports_buffer_discards
  exact ⟨h.1 { from_ := Addr.LineStart 9, to_ := Addr.Index 0 } "Hi".data 2
      (.lineIndexOutOfBounds 9 1) rfl,
    h.2.1 { text := [], dot := [] } 0 (.charIndexOutOfBounds 0 0),
    h.2.2 { text := [], dot := [] } [] (.charIndexOutOfBounds 0 0)⟩

/-- Claim C9 counterexample: on the buffer `"Hi"` holding one dot whose
`from` is the invalid `LineStart(5)`, the per-dot `move_left` fails with
a line error, yet `Buffer::move_left` returns the unchanged buffer with
no failure report: the per-dot failure is silently discarded. -/
theorem c9_buffer_move_left_swallows_error :
    Main.Buffer.move_left
        { text := "Hi".data, dot := [{ from_ := .LineStart 5, to_ := .Index 0 }] } 1 =
      .ok { text := "Hi".data, dot := [{ from_ := .LineStart 5, to_ := .Index 0 }] } ∧
    Main.Dot.move_left { from_ := .LineStart 5, to_ := .Index 0 } "Hi".data 1 =
      ({ from_ := .LineStart 5, to_ := .Index 0 }, .err (.lineIndexOutOfBounds 5 1)) := by
  decide

/-- Claim C10: resolving `BufferEnd` with `as_index` against the empty
body neither returns a value nor an error: `len_chars() - 1` underflows
the unsigned length 0, which is a panic in a debug build (modelled by
the `crash` outcome), so `BufferEnd` resolution is not total. -/
theorem c10_bufferEnd_empty_crashes :
    Addr.as_index .BufferEnd ([] : Body) = .crash := by
  decide
